import Mathlib

/-!
Verification model of the `rag-a-octai` RAG pipeline (TypeScript).

The TypeScript source is shallowly embedded: each pure function is
translated to an executable Lean definition; `async` methods that only
sequence effects are modelled with explicit `Except`/trace passing; the
external collaborators (Ollama embedding, Chroma client, pdf-parse,
langchain splitter) are parameters of the orchestrator definitions, as
they are injected dependencies in the source.

`DefaultTextProcessor` (src/infrastructure/text-processors) is a chain of
ten JavaScript `String.replace` calls with global regexes.  To embed it
faithfully we implement a small backtracking regular-expression engine
with ECMAScript semantics (ordered alternation, greedy/lazy repetition
with the empty-iteration guard, capture groups restored on backtracking,
backreferences, multiline anchors, lookahead and single-character
lookbehind, `\s`/`\d` classes, the dot excluding line feeds) and
transcribe every regex of the source literally into its AST.
-/

namespace RagaOctai

/-- The ECMAScript `\s` class (WhiteSpace ∪ LineTerminator). -/
def jsWhitespace (c : Char) : Bool :=
  c = ' ' || c = '\t' || c = '\n' || c = '\x0b' || c = '\x0c' || c = '\r' ||
  c.toNat = 0xa0 || c.toNat = 0x1680 ||
  (0x2000 ≤ c.toNat && c.toNat ≤ 0x200a) ||
  c.toNat = 0x2028 || c.toNat = 0x2029 || c.toNat = 0x202f ||
  c.toNat = 0x205f || c.toNat = 0x3000 || c.toNat = 0xfeff

/-- Character comparison, folding case when the regex has the `i` flag. -/
def charEq (icase : Bool) (a b : Char) : Bool :=
  a = b || (icase && (a.toLower = b.toLower))

/-- One item of a character class `[...]`. -/
inductive ClsItem where
  | one (c : Char)
  | range (lo hi : Char)
  | spaceCls
deriving DecidableEq, Repr

/-- Does character `c` match a class item (ranges fold case under `i`)? -/
def clsItemMatch (icase : Bool) (c : Char) : ClsItem → Bool
  | .one a => charEq icase a c
  | .range lo hi =>
      (lo.toNat ≤ c.toNat && c.toNat ≤ hi.toNat) ||
      (icase && ((lo.toNat ≤ c.toLower.toNat && c.toLower.toNat ≤ hi.toNat) ||
                 (lo.toNat ≤ c.toUpper.toNat && c.toUpper.toNat ≤ hi.toNat)))
  | .spaceCls => jsWhitespace c

/-- Abstract syntax of the regexes appearing in `DefaultTextProcessor`.
`rep min lz r` is `r{min,}` (`*`, `+`, `{n,}`), lazy when `lz`.
`look ahead positive r` covers `(?=r)`, `(?!r)`, `(?<=r)`, `(?<!r)`;
the lookbehind case is implemented for the single-character bodies the
source uses. -/
inductive RE where
  | eps
  | ch (c : Char)
  | cls (items : List ClsItem)
  | anyCh
  | seq (a b : RE)
  | alt (a b : RE)
  | rep (min : Nat) (lz : Bool) (r : RE)
  | opt (r : RE)
  | grp (i : Nat) (r : RE)
  | bref (i : Nat)
  | bol
  | eol
  | look (ahead : Bool) (positive : Bool) (r : RE)
deriving Repr

/-- Capture slots: group `i` (1-based) is stored at index `i - 1` as a
half-open range of input positions. -/
def Caps := List (Option (Nat × Nat))

def emptyCaps : Caps := [none, none, none, none]

def capsGet (caps : Caps) (i : Nat) : Option (Nat × Nat) :=
  (caps.getD (i - 1) none)

def capsSet (caps : Caps) (i : Nat) (v : Nat × Nat) : Caps :=
  caps.set (i - 1) (some v)

/-- Substring of the input as a character list. -/
def sliceChars (input : List Char) (s e : Nat) : List Char :=
  (input.drop s).take (e - s)

/-- Backtracking matcher with ECMAScript semantics, in continuation
style: `reM icase input fuel re pos caps k` tries to match `re` at
position `pos` and runs the continuation `k` on every candidate end
position, backtracking (in the specified order) until `k` succeeds.
`fuel` bounds the recursion depth; every repetition body of the embedded
regexes consumes at least one character, so a fuel linear in the input
length is sufficient (the drivers below supply it). -/
def reM (icase : Bool) (input : List Char) :
    Nat → RE → Nat → Caps → (Nat → Caps → Option (Nat × Caps)) → Option (Nat × Caps)
  | 0, _, _, _, _ => none
  | fuel + 1, re, pos, caps, k =>
    match re with
    | .eps => k pos caps
    | .ch c =>
        match input.get? pos with
        | some d => if charEq icase c d then k (pos + 1) caps else none
        | none => none
    | .cls items =>
        match input.get? pos with
        | some d => if items.any (clsItemMatch icase d) then k (pos + 1) caps else none
        | none => none
    | .anyCh =>
        match input.get? pos with
        | some d => if d = '\n' then none else k (pos + 1) caps
        | none => none
    | .seq a b => reM icase input fuel a pos caps (fun p c => reM icase input fuel b p c k)
    | .alt a b =>
        match reM icase input fuel a pos caps k with
        | some r => some r
        | none => reM icase input fuel b pos caps k
    | .rep 0 false r =>
        match reM icase input fuel r pos caps (fun p c =>
            if p = pos then none else reM icase input fuel (.rep 0 false r) p c k) with
        | some res => some res
        | none => k pos caps
    | .rep 0 true r =>
        match k pos caps with
        | some res => some res
        | none =>
            reM icase input fuel r pos caps (fun p c =>
              if p = pos then none else reM icase input fuel (.rep 0 true r) p c k)
    | .rep (m + 1) lz r =>
        reM icase input fuel r pos caps (fun p c => reM icase input fuel (.rep m lz r) p c k)
    | .opt r =>
        match reM icase input fuel r pos caps k with
        | some res => some res
        | none => k pos caps
    | .grp i r => reM icase input fuel r pos caps (fun p c => k p (capsSet c i (pos, p)))
    | .bref i =>
        match capsGet caps i with
        | none => k pos caps
        | some (s, e) =>
            let ref := sliceChars input s e
            let here := sliceChars input pos (pos + (e - s))
            if here.length = ref.length &&
               (List.zip here ref).all (fun p => charEq icase p.1 p.2) then
              k (pos + (e - s)) caps
            else none
    | .bol =>
        if pos = 0 || input.get? (pos - 1) = some '\n' then k pos caps else none
    | .eol =>
        if pos = input.length || input.get? pos = some '\n' then k pos caps else none
    | .look true positive r =>
        match reM icase input fuel r pos caps (fun p c => some (p, c)) with
        | some (_, c2) => if positive then k pos c2 else none
        | none => if positive then none else k pos caps
    | .look false positive r =>
        let m :=
          if pos = 0 then none
          else reM icase input fuel r (pos - 1) caps (fun p c =>
            if p = pos then some (p, c) else none)
        match m with
        | some (_, c2) => if positive then k pos c2 else none
        | none => if positive then none else k pos caps

/-- Leftmost match search: try each start position from `start`,
resetting captures per attempt, as the ECMAScript global-replace scan
does.  `tries` counts the remaining start positions. -/
def reFindFrom (icase : Bool) (input : List Char) (re : RE) (fuel : Nat) :
    Nat → Nat → Option (Nat × Nat × Caps)
  | _, 0 => none
  | start, tries + 1 =>
    match reM icase input fuel re start emptyCaps (fun p c => some (p, c)) with
    | some (e, caps) => some (start, e, caps)
    | none => reFindFrom icase input re fuel (start + 1) tries

/-- One piece of a replacement template: a literal, or `$i`. -/
inductive Repl where
  | lit (s : List Char)
  | cap (i : Nat)
deriving Repr

def replExpand (input : List Char) (caps : Caps) : List Repl → List Char
  | [] => []
  | .lit s :: rest => s ++ replExpand input caps rest
  | .cap i :: rest =>
      (match capsGet caps i with
       | some (s, e) => sliceChars input s e
       | none => []) ++ replExpand input caps rest

/-- The loop of `String.prototype.replace` with a global regex: find the
next match at or after `lastIndex`, emit the gap and the expanded
replacement, and continue after the match (advancing one character past
an empty match). -/
def replaceLoop (icase : Bool) (input : List Char) (re : RE) (fuel : Nat)
    (repl : List Repl) : Nat → Nat → List Char
  | _, 0 => []
  | lastIndex, steps + 1 =>
    match reFindFrom icase input re fuel lastIndex (input.length + 1 - lastIndex) with
    | none => input.drop lastIndex
    | some (ms, me, caps) =>
        let gap := sliceChars input lastIndex ms
        let rep := replExpand input caps repl
        if ms < me then
          gap ++ rep ++ replaceLoop icase input re fuel repl me steps
        else
          match input.get? me with
          | some c => gap ++ rep ++ [c] ++ replaceLoop icase input re fuel repl (me + 1) steps
          | none => gap ++ rep

/-- Model of `text.replace(re, repl)` with the `g` flag (and `i` when `icase`). -/
def replaceG (icase : Bool) (re : RE) (repl : List Repl) (s : String) : String :=
  let input := s.data
  let fuel := 8 * (input.length + 64)
  String.mk (replaceLoop icase input re fuel repl 0 (input.length + 2))

/-- Right-nested sequence of a list of regexes. -/
def reSeq (rs : List RE) : RE := rs.foldr RE.seq .eps

/-- A literal string as a regex. -/
def reLit (s : String) : RE := reSeq (s.data.map RE.ch)

/-- Model of `\s` -/
def sC : RE := .cls [.spaceCls]

/-- Model of `\d` -/
def dC : RE := .cls [.range '0' '9']

/-- Model of `[-–—]` (hyphen, en dash, em dash) -/
def dashC : RE := .cls [.one '-', .one '–', .one '—']

/-- Model of `r*` -/
def star (r : RE) : RE := .rep 0 false r

/-- Model of `r+` -/
def plus (r : RE) : RE := .rep 1 false r

/-! ## `DefaultTextProcessor`
(src/infrastructure/text-processors/default-text-processor, shipped in
`src/src/infrastructure/embedding/gemini-embedding.ts` bundle)

Each private method is one regex replace; the ASTs below transcribe the
source regex literals. -/

namespace DefaultTextProcessor

/-- Regex `/^\s*Page\s+\d+(\s+of\s+\d+)?\s*$/gim` -/
def rePageWord : RE :=
  reSeq [.bol, star sC, reLit "Page", plus sC, plus dC,
         .opt (.grp 1 (reSeq [plus sC, reLit "of", plus sC, plus dC])),
         star sC, .eol]

/-- Regex `/^\s*\d+(\s+of\s+\d+)?\s*$/gm` -/
def reBareNumber : RE :=
  reSeq [.bol, star sC, plus dC,
         .opt (.grp 1 (reSeq [plus sC, reLit "of", plus sC, plus dC])),
         star sC, .eol]

/-- Regex `/^\s*[-–—]{1,}\s*\d+\s+of\s+\d+\s*[-–—]{1,}\s*$/gm` -/
def reDashNofM : RE :=
  reSeq [.bol, star sC, .rep 1 false dashC, star sC, plus dC, plus sC,
         reLit "of", plus sC, plus dC, star sC, .rep 1 false dashC, star sC, .eol]

/-- Regex `/^\s*[-–—]{1,}\s*\d+\s*[-–—]{1,}\s*$/gm` -/
def reDashN : RE :=
  reSeq [.bol, star sC, .rep 1 false dashC, star sC, plus dC, star sC,
         .rep 1 false dashC, star sC, .eol]

/-- The four replaces of `removePageNumbers`, chained in source order. -/
def removePageNumbers (text : String) : String :=
  replaceG false reDashN []
    (replaceG false reDashNofM []
      (replaceG false reBareNumber []
        (replaceG true rePageWord [] text)))

/-- Regex `/^(Company Name|Document Title|Confidential).*$/gim` -/
def reHeaderFooter : RE :=
  reSeq [.bol,
         .grp 1 (.alt (reLit "Company Name") (.alt (reLit "Document Title") (reLit "Confidential"))),
         star .anyCh, .eol]

def removeHeadersFooters (text : String) : String :=
  replaceG true reHeaderFooter [] text

/-- Regex `/(?<![.!?:])\n(?!\n)/g` replaced by a single space -/
def reMidSentenceBreak : RE :=
  reSeq [.look false false (.cls [.one '.', .one '!', .one '?', .one ':']),
         .ch '\n',
         .look true false (.ch '\n')]

def fixLineBreaks (text : String) : String :=
  replaceG false reMidSentenceBreak [.lit [' ']] text

/-- Regex `/\n{3,}/g` replaced by `\n\n` -/
def reManyBlank : RE := .rep 3 false (.ch '\n')

def normalizeParagraphs (text : String) : String :=
  replaceG false reManyBlank [.lit ['\n', '\n']] text

/-- Regex `/(.*)(\n\1)+/g` replaced by `$1` -/
def reDupParagraph : RE :=
  .seq (.grp 1 (star .anyCh)) (plus (.grp 2 (.seq (.ch '\n') (.bref 1))))

def removeDuplicateParagraphs (text : String) : String :=
  replaceG false reDupParagraph [.cap 1] text

/-- Regex `/^(.+)(\n\1)+$/gm` replaced by `$1` -/
def reDupLine : RE :=
  reSeq [.bol, .grp 1 (plus .anyCh), plus (.grp 2 (.seq (.ch '\n') (.bref 1))), .eol]

def removeDuplicateLines (text : String) : String :=
  replaceG false reDupLine [.cap 1] text

/-- Regex `/\n(?=[A-Z][A-Za-z\s]{3,}\n)/g` replaced by `\n\n` -/
def reHeadingAhead : RE :=
  .seq (.ch '\n')
    (.look true true (reSeq [.cls [.range 'A' 'Z'],
                             .rep 3 false (.cls [.range 'A' 'Z', .range 'a' 'z', .spaceCls]),
                             .ch '\n']))

def preserveSectionSpacing (text : String) : String :=
  replaceG false reHeadingAhead [.lit ['\n', '\n']] text

/-- Regex `/\s(?:\.{3,}|·{2,}|[-–—]{2,})\s*\d+\s*$/gm` -/
def reTocLeader : RE :=
  reSeq [sC,
         .alt (.rep 3 false (.ch '.')) (.alt (.rep 2 false (.ch '·')) (.rep 2 false dashC)),
         star sC, plus dC, star sC, .eol]

def cleanTocLeaders (text : String) : String :=
  replaceG false reTocLeader [] text

/-- Regex `/^(\d+(\.\d+)*\s+.+?)(\s\.{3,}\s*\d+)\s*$/gm` replaced by `$1` -/
def reNumberedToc : RE :=
  reSeq [.bol,
         .grp 1 (reSeq [plus dC, star (.grp 2 (.seq (.ch '.') (plus dC))), plus sC,
                        .rep 1 true .anyCh]),
         .grp 3 (reSeq [sC, .rep 3 false (.ch '.'), star sC, plus dC]),
         star sC, .eol]

def cleanNumberedToc (text : String) : String :=
  replaceG false reNumberedToc [.cap 1] text

/-- Regex `/^.{20,}(\.{3,}.{0,}){2,}$/gm` -/
def reLeaderDots : RE :=
  reSeq [.bol, .rep 20 false .anyCh,
         .rep 2 false (.grp 1 (.seq (.rep 3 false (.ch '.')) (.rep 0 false .anyCh))),
         .eol]

def removeLeaderDotLinesSafe (text : String) : String :=
  replaceG false reLeaderDots [] text

/-- ECMAScript `String.prototype.trim` (strips the `\s` set on both ends). -/
def jsTrim (s : String) : String :=
  String.mk (((s.data.dropWhile jsWhitespace).reverse.dropWhile jsWhitespace).reverse)

/-- Model of `DefaultTextProcessor.processText`: the ten passes in source order,
then `trim()`; empty input short-circuits to the empty string. -/
def processText (raw : String) : String :=
  if raw = "" then ""
  else
    jsTrim
      (preserveSectionSpacing
        (removeDuplicateParagraphs
          (removeDuplicateLines
            (normalizeParagraphs
              (fixLineBreaks
                (removeHeadersFooters
                  (removeLeaderDotLinesSafe
                    (cleanNumberedToc
                      (cleanTocLeaders
                        (removePageNumbers raw))))))))))

end DefaultTextProcessor

/-! ## Data model -/

/-- A metadata value (`Record<string, any>` values used by the pipeline
are strings and numbers). -/
inductive MetaValue where
  | str (s : String)
  | num (n : Int)
deriving DecidableEq, Repr

/-- A JavaScript object used as metadata: an association list in
property order. -/
abbrev Metadata := List (String × MetaValue)

/-- JavaScript property assignment: replace the value in place if the
key exists, append otherwise. -/
def Metadata.set (m : Metadata) (k : String) (v : MetaValue) : Metadata :=
  if m.any (fun kv => kv.1 = k) then
    m.map (fun kv => if kv.1 = k then (k, v) else kv)
  else m ++ [(k, v)]

/-- Object spread `{...base, ...ext}`: assign `ext`'s properties over
`base` in order. -/
def Metadata.spread (base ext : Metadata) : Metadata :=
  ext.foldl (fun acc kv => Metadata.set acc kv.1 kv.2) base

/-- JavaScript `x || d` for an optional rational (`0` is falsy). -/
def jsOrQ (x : Option ℚ) (d : ℚ) : ℚ :=
  match x with
  | none => d
  | some v => if v = 0 then d else v

/-- JavaScript `x || d` for an optional integer (`0` is falsy). -/
def jsOrInt (x : Option Int) (d : Int) : Int :=
  match x with
  | none => d
  | some v => if v = 0 then d else v

/-- JavaScript `x || d` for an optional string (`''` is falsy). -/
def jsOrStr (x : Option String) (d : String) : String :=
  match x with
  | none => d
  | some v => if v = "" then d else v

/-- Model of `Document` (src/infrastructure/file-handlers/file-handler): file
content, optional id and metadata.  It is also the chunk type. -/
structure Document where
  id : Option String := none
  content : String
  metadata : Option Metadata := none
deriving DecidableEq, Repr

/-- Model of `SearchResult` (vector-store): a `Document` plus a similarity
score.  Scores are IEEE doubles in the source; they are modelled as
rationals, which is faithful for the ordering comparisons the core
performs. -/
structure SearchResult extends Document where
  score : ℚ
deriving DecidableEq, Repr

/-- Model of `FileInfo` (multer upload).  The byte `buffer` is modelled as its
UTF-8 decoding, which is the only way the core reads it. -/
structure FileInfo where
  originalname : String
  size : Nat
  mimetype : String
  encoding : String
  buffer : String
deriving DecidableEq, Repr

/-- Model of `UpsertItem` (vector-store): the entry handed to
`ChromaVectorStore.upsert`; `embedding` and `metadata` are optional in
the interface. -/
structure UpsertItem where
  id : String
  embedding : Option (List ℚ) := none
  text : String
  metadata : Option Metadata := none
deriving DecidableEq, Repr

/-- Model of `PromptContext` (lang-models/model-base). -/
structure PromptContext where
  question : String
  maxTokens : Option Int := none
  sources : Option (List Document) := none
deriving DecidableEq, Repr

/-! ## `ChromaVectorStore` (src/unnamed/part_000) -/

/-- The parallel-array argument object passed to the Chroma client's
`collection.upsert`. -/
structure ChromaUpsertArgs where
  ids : List String
  embeddings : List (List ℚ)
  documents : List String
  metadatas : List Metadata
deriving DecidableEq, Repr

/-- Model of `ChromaVectorStore.upsert`: builds the parallel arrays
`ids`/`embeddings`/`documents`/`metadatas` from the items, substituting
`[]` for a missing embedding (`item.embedding || []`) and `{}` for
missing metadata (`item.metadata || {}`).  The network call on the
resulting arrays is external. -/
def ChromaVectorStore.upsert (items : List UpsertItem) : ChromaUpsertArgs :=
  { ids := items.map (fun item => item.id),
    embeddings := items.map (fun item => item.embedding.getD []),
    documents := items.map (fun item => item.text),
    metadatas := items.map (fun item => item.metadata.getD []) }

/-! ## Chunkers (src/infrastructure/chunkers) -/

/-- Model of `ChunkingOptions`: `chunkSize` and optional `overlap`. -/
structure ChunkingOptions where
  chunkSize : Int
  overlap : Option Int := none
deriving DecidableEq, Repr

/-- Model of `Chunker.assertChunkSizeGreaterThanOverlap`: throws when `overlap`
is defined and `overlap >= chunkSize`. -/
def Chunker.assertChunkSizeGreaterThanOverlap (chunkOptions : ChunkingOptions) :
    Except String Unit :=
  match chunkOptions.overlap with
  | some o =>
      if o ≥ chunkOptions.chunkSize then
        .error "Overlap must be smaller than chunk size."
      else .ok ()
  | none => .ok ()

/-- Model of `Chunker.createChunk`: fresh id `chunk-${uuid.v4()}` plus content
and metadata.  The drawn uuid is an explicit argument. -/
def Chunker.createChunk (uuid : String) (content : String)
    (metadata : Option Metadata) : Document :=
  { id := some ("chunk-" ++ uuid), content := content, metadata := metadata }

/-- The `RecursiveChunker` constructor: runs the overlap assertion and
stores the options. -/
def RecursiveChunker.construct (options : ChunkingOptions) :
    Except String ChunkingOptions :=
  match Chunker.assertChunkSizeGreaterThanOverlap options with
  | .error e => .error e
  | .ok _ => .ok { chunkSize := options.chunkSize, overlap := options.overlap }

/-- Model of `RecursiveChunker.chunk`: split via the external langchain
`RecursiveCharacterTextSplitter` (passed in as `splitText`, applied to
`chunkSize` and `overlap ?? 0`), then wrap each piece with a fresh id
and metadata `{...metadata, chunk: index, totalChunks: count}`.  The
uuid supply is the explicit `uuids` argument. -/
def RecursiveChunker.chunk (splitText : Int → Int → String → List String)
    (uuids : Nat → String) (options : ChunkingOptions)
    (text : String) (metadata : Option Metadata) : List Document :=
  let chunks := splitText options.chunkSize (options.overlap.getD 0) text
  chunks.mapIdx (fun index c =>
    Chunker.createChunk (uuids index) c
      (some (((metadata.getD []).set "chunk" (.num index)).set "totalChunks"
        (.num chunks.length))))

/-- Modelled from the spec: the external langchain
`RecursiveCharacterTextSplitter.splitText` is not part of this
repository.  The spec constrains it only through "Chunking a unit that
normalizes to the empty string yields an empty chunk list" and, for
text no longer than `chunkSize`, a single chunk holding the text; the
model returns no piece for the empty string and one piece otherwise. -/
def splitTextModel (_chunkSize _chunkOverlap : Int) (text : String) : List String :=
  if text = "" then [] else [text]

/-! ## File handlers (src/infrastructure/file-handlers) -/

/-- Model of `TextFileHandler.handleFile`: decode the buffer as UTF-8 (the
stream concatenation is the identity on the content), run the text
processor, and return one document tagged `{mimeType: 'text'}`. -/
def TextFileHandler.handleFile (fileInfo : FileInfo) : Except String Document :=
  .ok { id := none,
        content := DefaultTextProcessor.processText fileInfo.buffer,
        metadata := some [("mimeType", .str "text")] }

/-- The behaviour of one external `PDFParse` handle built from a file
buffer: page count retrieval, full-document text, per-page text; each
may reject (corrupt file, parser failure). -/
structure PDFParse where
  getInfoTotal : Except String Int
  getFullText : Except String String
  getPageText : Int → Except String String

/-- Model of `PdfFileHandler.handleFile` (whole-document variant).  The boolean
records whether `pdfParser.destroy()` ran before the method returned:
the source calls it only after `getInfo`, `getText` and `processText`
all succeeded, so a rejection on any of them returns with the parser
still alive. -/
def PdfFileHandler.handleFile (processText : String → Except String String)
    (pdfParser : PDFParse) : Except String Document × Bool :=
  match pdfParser.getInfoTotal with
  | .error e => (.error e, false)
  | .ok total =>
    match pdfParser.getFullText with
    | .error e => (.error e, false)
    | .ok rawText =>
      match processText rawText with
      | .error e => (.error e, false)
      | .ok finalText =>
          (.ok { id := none, content := finalText,
                 metadata := some [("totalPages", .num total)] }, true)

/-- The page loop of `PdfPageFileHandler.handleFile`:
`for (let i = 0; i < total; i++)` extracts page `i + 1`, processes it
and pushes `{content, metadata: {page: i + 1, totalPages: total}}`;
the first rejection aborts the loop. -/
def PdfPageFileHandler.pagesLoop (processText : String → Except String String)
    (pdfParser : PDFParse) (total : Int) :
    List Nat → Except String (List Document)
  | [] => .ok []
  | i :: rest =>
    match pdfParser.getPageText ((i : Int) + 1) with
    | .error e => .error e
    | .ok rawText =>
      match processText rawText with
      | .error e => .error e
      | .ok finalText =>
        match PdfPageFileHandler.pagesLoop processText pdfParser total rest with
        | .error e => .error e
        | .ok more =>
            .ok ({ id := none, content := finalText,
                   metadata := some [("page", .num ((i : Int) + 1)),
                                     ("totalPages", .num total)] } :: more)

/-- Model of `PdfPageFileHandler.handleFile` (per-page variant).  As in
`PdfFileHandler.handleFile`, the boolean records whether
`pdfParser.destroy()` ran; the source reaches it only when `getInfo`
and every page's extraction and processing succeeded. -/
def PdfPageFileHandler.handleFile (processText : String → Except String String)
    (pdfParser : PDFParse) : Except String (List Document) × Bool :=
  match pdfParser.getInfoTotal with
  | .error e => (.error e, false)
  | .ok total =>
    match PdfPageFileHandler.pagesLoop processText pdfParser total
        (List.range total.toNat) with
    | .error e => (.error e, false)
    | .ok docs => (.ok docs, true)

/-! ## Language model (src/infrastructure/lang-models) -/

/-- A chat message of the prompt template. -/
structure ChatMessage where
  role : String
  content : String
deriving DecidableEq, Repr

/-- The chat request object `buildPrompt` returns. -/
structure ChatRequest where
  model : String
  messages : List ChatMessage
deriving DecidableEq, Repr

/-- JavaScript `Array.prototype.join(sep)`. -/
def joinSep (sep : String) : List String → String
  | [] => ""
  | [x] => x
  | x :: xs => x ++ sep ++ joinSep sep xs

/-- Model of `LangModelBase.buildContext`: empty when `sources` is missing or
empty, otherwise the sources numbered `[1] ...`, `[2] ...` joined by
blank lines. -/
def LangModelBase.buildContext (promptCtx : PromptContext) : String :=
  match promptCtx.sources with
  | none => ""
  | some srcs =>
      if srcs.length = 0 then ""
      else
        joinSep "\n\n"
          (srcs.mapIdx (fun idx doc =>
            "[" ++ toString (idx + 1) ++ "] " ++ doc.content))

/-- The system instruction of `OllamaLangModel.buildPrompt`. -/
def OllamaLangModel.systemContent : String :=
  "You are a helpful assistant. Use the following context to answer the question. If the context doesn\x27t contain relevant information, say so politely."

/-- Model of `OllamaLangModel.buildContent`: with no context, a question plus an
explicit no-information notice and polite-refusal instruction; with
context, the context block, the question, and an `Answer:` cue. -/
def OllamaLangModel.buildContent (context question : String) : String :=
  if context = "" then
    "Question: " ++ question ++
      "\n\nYou don\x27t have any relevant information to answer this question. Please say so politely."
  else
    "Context: " ++ context ++ "\n\nQuestion: " ++ question ++ "\n\nAnswer:"

/-- Model of `OllamaLangModel.buildPrompt`: system instruction plus the user
message built from the context and question. -/
def OllamaLangModel.buildPrompt (model : String) (promptCtx : PromptContext) :
    ChatRequest :=
  let context := LangModelBase.buildContext promptCtx
  let content := OllamaLangModel.buildContent context promptCtx.question
  { model := model,
    messages := [{ role := "system", content := OllamaLangModel.systemContent },
                 { role := "user", content := content }] }

/-! ## Query orchestrator (`RagOrchestrator`, src/src/index.ts) -/

/-- Model of `RagOrchestrator.query` after the external embedding and vector
search: `results` is what `store.search` returned, in retrieval order.
The first component is the returned answer; the second is the
`PromptContext` passed to `langModel.generateResponse`, or `none` when
the generator was never invoked. -/
def RagOrchestrator.query (generateResponse : PromptContext → String)
    (query : String) (results : List SearchResult)
    (threshold : Option ℚ) (maxTokens : Option Int) :
    String × Option PromptContext :=
  let filteredResults := results.filter (fun result =>
    decide (jsOrQ threshold 0 ≤ result.score))
  if filteredResults.length = 0 then ("", none)
  else
    let promptContext : PromptContext :=
      { question := query,
        sources := some (filteredResults.map (fun r => r.toDocument)),
        maxTokens := some (jsOrInt maxTokens 512) }
    (generateResponse promptContext, some promptContext)

/-! ## Ingestion orchestrator (`RagDataIngestor`, src/unnamed/part_002) -/

/-- Errors thrown by `RagDataIngestor.ingest`. -/
inductive IngestErr where
  | noFiles
  | noHandler (mimetype : String)
  | extraction (msg : String)
deriving DecidableEq, Repr

/-- The provider calls `ingest` performed before it returned or threw:
the files handed to `handleFile`, the argument of each `embedding.embed`
call and the argument of each `store.upsert` call. -/
structure IngestTrace where
  handledFiles : List String
  embedCalls : List (List String)
  upsertCalls : List (List UpsertItem)
deriving DecidableEq, Repr

/-- The per-file loop of `ingest`: resolve the handler from the
registry (throwing `noHandler` as `setFileHandler` does), run it,
wrap a single document into a list (`Array.isArray` check), chunk every
document with metadata `{source, mimeType, ...doc.metadata}`, and
accumulate the chunks of all files in order.  Also returns the names of
the files whose handler ran. -/
def RagDataIngestor.ingestLoop
    (chunkFn : String → Metadata → List Document)
    (registry : String → Option (Metadata → FileInfo → Except String (Document ⊕ List Document)))
    (params : Metadata) :
    List FileInfo → Except IngestErr (List Document) × List String
  | [] => (.ok [], [])
  | file :: rest =>
    match registry file.mimetype with
    | none => (.error (.noHandler file.mimetype), [])
    | some factory =>
      match factory params file with
      | .error msg => (.error (.extraction msg), [file.originalname])
      | .ok result =>
        let docs := match result with | .inl d => [d] | .inr ds => ds
        let chunks := (docs.map (fun doc =>
          chunkFn doc.content
            (Metadata.spread
              [("source", .str file.originalname), ("mimeType", .str file.mimetype)]
              (doc.metadata.getD [])))).flatten
        match RagDataIngestor.ingestLoop chunkFn registry params rest with
        | (.error e, calls) => (.error e, file.originalname :: calls)
        | (.ok more, calls) => (.ok (chunks ++ more), file.originalname :: calls)

/-- Model of `RagDataIngestor.ingest`: throw on an empty file list before any
provider call; otherwise run the per-file loop, then embed all chunk
texts in one batch call, pair chunks with vectors positionally
(`embeddings[index]`, `undefined` past the end), and upsert the items in
one call. -/
def RagDataIngestor.ingest
    (chunkFn : String → Metadata → List Document)
    (registry : String → Option (Metadata → FileInfo → Except String (Document ⊕ List Document)))
    (embedFn : List String → List (List ℚ))
    (files : List FileInfo) (params : Metadata) :
    Except IngestErr Unit × IngestTrace :=
  if files.length = 0 then (.error .noFiles, ⟨[], [], []⟩)
  else
    match RagDataIngestor.ingestLoop chunkFn registry params files with
    | (.error e, calls) => (.error e, ⟨calls, [], []⟩)
    | (.ok allChunks, calls) =>
      let texts := allChunks.map (fun chunk => chunk.content)
      let embeddings := embedFn texts
      let upsertItems := allChunks.mapIdx (fun index chunk =>
        { id := jsOrStr chunk.id "",
          text := chunk.content,
          metadata := some (chunk.metadata.getD []),
          embedding := embeddings[index]? : UpsertItem })
      (.ok (), ⟨calls, [texts], [upsertItems]⟩)

/-! ## Claims -/

/-- C9. For every chunking configuration with both `chunkSize` and
`overlap` given, construction of the `RecursiveChunker` fails with the
configuration error `Overlap must be smaller than chunk size.` exactly
when `overlap >= chunkSize`, and succeeds (storing the options) when
`overlap < chunkSize`. -/
theorem C9_chunker_construction (chunkSize overlap : Int) :
    (overlap ≥ chunkSize →
      RecursiveChunker.construct { chunkSize := chunkSize, overlap := some overlap } =
        .error "Overlap must be smaller than chunk size.") ∧
    (overlap < chunkSize →
      RecursiveChunker.construct { chunkSize := chunkSize, overlap := some overlap } =
        .ok { chunkSize := chunkSize, overlap := some overlap }) := by
  constructor
  · intro h
    simp [RecursiveChunker.construct, Chunker.assertChunkSizeGreaterThanOverlap, h]
  · intro h
    simp [RecursiveChunker.construct, Chunker.assertChunkSizeGreaterThanOverlap,
      not_le.mpr h]

/-- Witness for C9 at `chunkSize = 3` with `overlap = 5` (failure) and
`overlap = 2` (success). -/
theorem C9_chunker_construction_witness :
    ((5 : Int) ≥ 3 ∧
      RecursiveChunker.construct { chunkSize := 3, overlap := some 5 } =
        .error "Overlap must be smaller than chunk size.") ∧
    ((2 : Int) < 3 ∧
      RecursiveChunker.construct { chunkSize := 3, overlap := some 2 } =
        .ok { chunkSize := 3, overlap := some 2 }) :=
  ⟨⟨by decide, (C9_chunker_construction 3 5).1 (by decide)⟩,
   ⟨by decide, (C9_chunker_construction 3 2).2 (by decide)⟩⟩

/-- C10. `ChromaVectorStore.upsert` is total on its batch: an item
with no `embedding` is not rejected, its slot in the parallel
`embeddings` array is silently the empty vector (`item.embedding || []`),
and the four parallel arrays keep the batch's length and index
correspondence. -/
theorem C10_upsert_missing_embedding (items : List UpsertItem) (i : Nat)
    (h : i < items.length) (habs : (items.get ⟨i, h⟩).embedding = none) :
    (ChromaVectorStore.upsert items).embeddings[i]? = some [] ∧
    (ChromaVectorStore.upsert items).ids[i]? = some (items.get ⟨i, h⟩).id ∧
    (ChromaVectorStore.upsert items).documents[i]? = some (items.get ⟨i, h⟩).text ∧
    (ChromaVectorStore.upsert items).ids.length = items.length ∧
    (ChromaVectorStore.upsert items).embeddings.length = items.length ∧
    (ChromaVectorStore.upsert items).documents.length = items.length ∧
    (ChromaVectorStore.upsert items).metadatas.length = items.length := by
  have hg : items[i]? = some (items.get ⟨i, h⟩) := List.getElem?_eq_getElem h
  have habs2 : items[i].embedding = none := habs
  refine ⟨?_, ?_, ?_, ?_, ?_, ?_, ?_⟩ <;>
    simp [ChromaVectorStore.upsert, List.getElem?_map, hg, habs2, List.get_eq_getElem]

/-- Witness for C10: a one-item batch whose item carries no embedding. -/
theorem C10_upsert_missing_embedding_witness :
    (ChromaVectorStore.upsert [{ id := "a", text := "t" }]).embeddings[0]? = some [] ∧
    (ChromaVectorStore.upsert [{ id := "a", text := "t" }]).ids.length = 1 :=
  have h :=
    C10_upsert_missing_embedding [{ id := "a", text := "t" }] 0 (by decide) (by decide)
  ⟨h.1, h.2.2.2.1⟩

/-- C6. `ingest` on an empty file list throws
`No files provided for ingestion` immediately: no handler is resolved
or run, no embedding call and no upsert call is made, for every
injected chunker, registry and embedder. -/
theorem C6_ingest_empty_batch
    (chunkFn : String → Metadata → List Document)
    (registry : String → Option (Metadata → FileInfo → Except String (Document ⊕ List Document)))
    (embedFn : List String → List (List ℚ)) (params : Metadata) :
    RagDataIngestor.ingest chunkFn registry embedFn [] params =
      (.error .noFiles, ⟨[], [], []⟩) :=
  rfl

/-- A `PDFParse` handle whose operations all reject, as for a corrupt
PDF buffer. -/
def corruptPdf : PDFParse :=
  { getInfoTotal := .error "corrupt PDF",
    getFullText := .error "corrupt PDF",
    getPageText := fun _ => .error "corrupt PDF" }

/-- C5 (the code contradicts it).  On the error path neither PDF
extractor releases the parser: with a handle whose `getInfo` rejects,
both `handleFile` variants propagate the error with the released flag
`false` — `pdfParser.destroy()` is reached only after every await
succeeded, there being no try/finally. -/
theorem C5_pdf_parser_not_released_on_error :
    PdfPageFileHandler.handleFile
        (fun s => .ok (DefaultTextProcessor.processText s)) corruptPdf =
      (.error "corrupt PDF", false) ∧
    PdfFileHandler.handleFile
        (fun s => .ok (DefaultTextProcessor.processText s)) corruptPdf =
      (.error "corrupt PDF", false) :=
  ⟨rfl, rfl⟩

/-- C1. In `RagOrchestrator.query`: an absent threshold behaves as
threshold `0`; when the threshold filter leaves nothing, the answer is
the empty string and `generateResponse` is never invoked; otherwise
`generateResponse` is invoked once, its sources being exactly the
surviving results, which are a sublist of the search results (retrieval
order preserved). -/
theorem C1_query_threshold_filter (generateResponse : PromptContext → String)
    (q : String) (results : List SearchResult)
    (threshold : Option ℚ) (maxTokens : Option Int) :
    (RagOrchestrator.query generateResponse q results none maxTokens =
       RagOrchestrator.query generateResponse q results (some 0) maxTokens) ∧
    (results.filter (fun r => decide (jsOrQ threshold 0 ≤ r.score)) = [] →
       RagOrchestrator.query generateResponse q results threshold maxTokens =
         ("", none)) ∧
    (∀ filtered,
      filtered = results.filter (fun r => decide (jsOrQ threshold 0 ≤ r.score)) →
      filtered ≠ [] →
      RagOrchestrator.query generateResponse q results threshold maxTokens =
        (generateResponse
           { question := q,
             sources := some (filtered.map (fun r => r.toDocument)),
             maxTokens := some (jsOrInt maxTokens 512) },
         some { question := q,
                sources := some (filtered.map (fun r => r.toDocument)),
                maxTokens := some (jsOrInt maxTokens 512) }) ∧
      filtered.Sublist results) := by
  refine ⟨by simp [RagOrchestrator.query, jsOrQ], ?_, ?_⟩
  · intro h
    simp [RagOrchestrator.query, h]
  · intro filtered hdef hne
    subst hdef
    refine ⟨?_, List.filter_sublist results⟩
    rw [RagOrchestrator.query]
    simp [List.length_eq_zero, hne]

/-- Witness for C1: one search result of score `3` against threshold
`1` survives the filter and is handed to the generator; the same
result against threshold `7` is filtered out and the generator is never
invoked. -/
theorem C1_query_threshold_filter_witness :
    (RagOrchestrator.query (fun _ => "answer") "q"
        [{ content := "doc", score := 3 }] (some 1) none =
      ("answer",
       some { question := "q",
              sources := some [{ content := "doc" }],
              maxTokens := some 512 })) ∧
    (RagOrchestrator.query (fun _ => "answer") "q"
        [{ content := "doc", score := 3 }] (some 7) none = ("", none)) := by
  constructor
  · have h := (C1_query_threshold_filter (fun _ => "answer") "q"
      [{ content := "doc", score := 3 }] (some 1) none).2.2
      [{ content := "doc", score := 3 }] (by decide) (by decide)
    exact h.1
  · exact (C1_query_threshold_filter (fun _ => "answer") "q"
      [{ content := "doc", score := 3 }] (some 7) none).2.1 (by decide)

/-- The join of a nonempty list is at least as long as its head. -/
lemma joinSep_cons_length (sep x : String) (xs : List String) :
    x.length ≤ (joinSep sep (x :: xs)).length := by
  cases xs with
  | nil => simp [joinSep]
  | cons y t => simp [joinSep, String.length_append]; omega

/-- With a nonempty source list, `buildContext` is the numbered join
and in particular not empty. -/
lemma buildContext_cons (promptCtx : PromptContext) (d : Document)
    (ds : List Document) (h : promptCtx.sources = some (d :: ds)) :
    LangModelBase.buildContext promptCtx =
      joinSep "\n\n" ((d :: ds).mapIdx (fun idx doc =>
        "[" ++ toString (idx + 1) ++ "] " ++ doc.content)) ∧
    LangModelBase.buildContext promptCtx ≠ "" := by
  have hb : LangModelBase.buildContext promptCtx =
      joinSep "\n\n" ((d :: ds).mapIdx (fun idx doc =>
        "[" ++ toString (idx + 1) ++ "] " ++ doc.content)) := by
    simp [LangModelBase.buildContext, h]
  refine ⟨hb, ?_⟩
  intro hempty
  rw [hb, List.mapIdx_cons] at hempty
  have hlen := joinSep_cons_length "\n\n"
    ("[" ++ toString (0 + 1) ++ "] " ++ d.content)
    (ds.mapIdx (fun i doc => "[" ++ toString (i + 1 + 1) ++ "] " ++ doc.content))
  rw [hempty] at hlen
  have hone : "[".length = 1 := rfl
  simp [String.length_append] at hlen
  omega

/-- C8. In the prompt built by `OllamaLangModel.buildPrompt`: with
no sources (absent or empty list) the user message states that no
relevant information is available and instructs a polite refusal; with
sources present it is the sources numbered `[1]`, `[2]`, … in their
given order, followed by the question and an `Answer:` cue. -/
theorem C8_prompt_assembly (model : String) (promptCtx : PromptContext) :
    ((promptCtx.sources = none ∨ promptCtx.sources = some []) →
      (OllamaLangModel.buildPrompt model promptCtx).messages =
        [{ role := "system", content := OllamaLangModel.systemContent },
         { role := "user",
           content := "Question: " ++ promptCtx.question ++
             "\n\nYou don\x27t have any relevant information to answer this question. Please say so politely." }]) ∧
    (∀ d ds, promptCtx.sources = some (d :: ds) →
      (OllamaLangModel.buildPrompt model promptCtx).messages =
        [{ role := "system", content := OllamaLangModel.systemContent },
         { role := "user",
           content := "Context: " ++
             joinSep "\n\n" ((d :: ds).mapIdx (fun idx doc =>
               "[" ++ toString (idx + 1) ++ "] " ++ doc.content)) ++
             "\n\nQuestion: " ++ promptCtx.question ++ "\n\nAnswer:" }]) := by
  constructor
  · rintro (h | h) <;>
      simp [OllamaLangModel.buildPrompt, OllamaLangModel.buildContent,
        LangModelBase.buildContext, h]
  · intro d ds h
    obtain ⟨hb, hne⟩ := buildContext_cons promptCtx d ds h
    rw [hb, List.mapIdx_cons] at hne
    simp [OllamaLangModel.buildPrompt, OllamaLangModel.buildContent, hb, hne]

/-- Witness for C8: two sources produce the numbered context block; no
sources produce the refusal instruction. -/
theorem C8_prompt_assembly_witness :
    (OllamaLangModel.buildPrompt "m"
        { question := "qq",
          sources := some [{ content := "alpha" }, { content := "beta" }] }).messages =
      [{ role := "system", content := OllamaLangModel.systemContent },
       { role := "user",
         content := "Context: [1] alpha\n\n[2] beta\n\nQuestion: qq\n\nAnswer:" }] ∧
    (OllamaLangModel.buildPrompt "m" { question := "qq" }).messages =
      [{ role := "system", content := OllamaLangModel.systemContent },
       { role := "user",
         content := "Question: qq\n\nYou don\x27t have any relevant information to answer this question. Please say so politely." }] := by
  constructor
  · have h := (C8_prompt_assembly "m"
      { question := "qq",
        sources := some [{ content := "alpha" }, { content := "beta" }] }).2
      { content := "alpha" } [{ content := "beta" }] rfl
    rw [h]
    decide
  · exact (C8_prompt_assembly "m" { question := "qq" }).1 (Or.inl rfl)

/-- When every page extraction and every processing step succeeds, the
page loop returns one document per index, tagged with its 1-based page
number and the page total. -/
lemma pagesLoop_total_ok (processTextF : String → Except String String)
    (pdfParser : PDFParse) (total : Int)
    (hpage : ∀ p : Int, ∃ t, pdfParser.getPageText p = .ok t)
    (hproc : ∀ s, ∃ t, processTextF s = .ok t) :
    ∀ is : List Nat, ∃ docs,
      PdfPageFileHandler.pagesLoop processTextF pdfParser total is = .ok docs ∧
      docs.length = is.length ∧
      ∀ j (hj : j < is.length) (hj2 : j < docs.length),
        (docs.get ⟨j, hj2⟩).metadata =
          some [("page", .num ((is.get ⟨j, hj⟩ : Int) + 1)),
                ("totalPages", .num total)] := by
  intro is
  induction is with
  | nil =>
      refine ⟨[], rfl, rfl, ?_⟩
      intro j hj
      simp at hj
  | cons i rest ih =>
      obtain ⟨docs, hdocs, hlen, hmeta⟩ := ih
      obtain ⟨t1, ht1⟩ := hpage ((i : Int) + 1)
      obtain ⟨t2, ht2⟩ := hproc t1
      refine ⟨{ id := none, content := t2,
                metadata := some [("page", .num ((i : Int) + 1)),
                                  ("totalPages", .num total)] } :: docs, ?_, ?_, ?_⟩
      · simp [PdfPageFileHandler.pagesLoop, ht1, ht2, hdocs]
      · simp [hlen]
      · intro j hj hj2
        cases j with
        | zero => simp
        | succ k =>
            simp only [List.get_cons_succ]
            exact hmeta k (by simpa using hj) (by simpa using hj2)

/-- C7. For a PDF whose page count resolves to `N` and whose page
extraction and text processing succeed, `PdfPageFileHandler.handleFile`
returns exactly `N` documents (and releases the parser), the `i`-th of
which carries metadata `{page: i + 1, totalPages: N}` (1-based). -/
theorem C7_per_page_extractor (processTextF : String → Except String String)
    (pdfParser : PDFParse) (N : Nat)
    (hinfo : pdfParser.getInfoTotal = .ok (N : Int))
    (hpage : ∀ p : Int, ∃ t, pdfParser.getPageText p = .ok t)
    (hproc : ∀ s, ∃ t, processTextF s = .ok t) :
    ∃ docs,
      PdfPageFileHandler.handleFile processTextF pdfParser = (.ok docs, true) ∧
      docs.length = N ∧
      ∀ i (hi : i < docs.length),
        (docs.get ⟨i, hi⟩).metadata =
          some [("page", .num ((i : Int) + 1)),
                ("totalPages", .num (N : Int))] := by
  obtain ⟨docs, hdocs, hlen, hmeta⟩ :=
    pagesLoop_total_ok processTextF pdfParser (N : Int) hpage hproc (List.range N)
  have hrlen : (List.range N).length = N := List.length_range N
  refine ⟨docs, ?_, by rw [hlen, hrlen], ?_⟩
  · have hr : List.range ((N : Int)).toNat = List.range N := by simp
    simp [PdfPageFileHandler.handleFile, hinfo, hr, hdocs]
  · intro i hi
    have hj : i < (List.range N).length := by rw [hrlen]; omega
    have h := hmeta i hj hi
    rw [h]
    have : (List.range N).get ⟨i, hj⟩ = i := by
      simp [List.get_eq_getElem, List.getElem_range]
    rw [this]

/-- Witness for C7: a two-page PDF whose pages extract as `x` yields
two documents with page metadata `1` and `2` out of `2`. -/
theorem C7_per_page_extractor_witness :
    ∃ docs,
      PdfPageFileHandler.handleFile (fun s => .ok s)
          { getInfoTotal := .ok 2, getFullText := .ok "x",
            getPageText := fun _ => .ok "x" } = (.ok docs, true) ∧
      docs.length = 2 ∧
      ∀ i (hi : i < docs.length),
        (docs.get ⟨i, hi⟩).metadata =
          some [("page", .num ((i : Int) + 1)), ("totalPages", .num 2)] :=
  C7_per_page_extractor (fun s => .ok s)
    { getInfoTotal := .ok 2, getFullText := .ok "x",
      getPageText := fun _ => .ok "x" } 2
    rfl (fun _ => ⟨"x", rfl⟩) (fun s => ⟨s, rfl⟩)

/-- Indexing a `mapIdx`: the `i`-th element is `f i` of the `i`-th
element of the original list. -/
lemma getElem?_mapIdx_of_lt {α β : Type _} (l : List α) (f : Nat → α → β)
    (i : Nat) (h : i < l.length) :
    (l.mapIdx f)[i]? = some (f i (l.get ⟨i, h⟩)) := by
  have hlen : i < (l.mapIdx f).length := by
    simpa [List.length_mapIdx] using h
  rw [List.getElem?_eq_getElem hlen]
  have := List.get_mapIdx l f i h
  simp only [List.get_eq_getElem] at this
  rw [this]
  rfl

/-- C2. On a successful ingestion run whose batch embed call
returns one vector per input text, the single upsert call receives one
item per accumulated chunk, and the `i`-th item carries the `i`-th
chunk's text and metadata together with the `i`-th vector of the batch
embed call over all chunk texts; the parallel arrays built by
`ChromaVectorStore.upsert` all have the batch's length and index
correspondence. -/
theorem C2_positional_alignment
    (chunkFn : String → Metadata → List Document)
    (registry : String → Option (Metadata → FileInfo → Except String (Document ⊕ List Document)))
    (embedFn : List String → List (List ℚ))
    (files : List FileInfo) (params : Metadata)
    (allChunks : List Document) (calls : List String)
    (hloop : RagDataIngestor.ingestLoop chunkFn registry params files =
      (.ok allChunks, calls))
    (hne : files ≠ [])
    (hcount : (embedFn (allChunks.map (fun c => c.content))).length =
      allChunks.length) :
    ∃ items,
      RagDataIngestor.ingest chunkFn registry embedFn files params =
        (.ok (), ⟨calls, [allChunks.map (fun c => c.content)], [items]⟩) ∧
      items.length = allChunks.length ∧
      (∀ i (hi : i < allChunks.length), ∃ v,
        (embedFn (allChunks.map (fun c => c.content)))[i]? = some v ∧
        items[i]? = some
          { id := jsOrStr (allChunks.get ⟨i, hi⟩).id "",
            text := (allChunks.get ⟨i, hi⟩).content,
            metadata := some ((allChunks.get ⟨i, hi⟩).metadata.getD []),
            embedding := some v }) ∧
      (ChromaVectorStore.upsert items).ids.length = items.length ∧
      (ChromaVectorStore.upsert items).embeddings.length = items.length ∧
      (ChromaVectorStore.upsert items).documents.length = items.length ∧
      (ChromaVectorStore.upsert items).metadatas.length = items.length ∧
      (∀ i : Nat,
        (ChromaVectorStore.upsert items).ids[i]? =
          (items[i]?).map (fun (it : UpsertItem) => it.id) ∧
        (ChromaVectorStore.upsert items).embeddings[i]? =
          (items[i]?).map (fun (it : UpsertItem) => it.embedding.getD []) ∧
        (ChromaVectorStore.upsert items).documents[i]? =
          (items[i]?).map (fun (it : UpsertItem) => it.text) ∧
        (ChromaVectorStore.upsert items).metadatas[i]? =
          (items[i]?).map (fun (it : UpsertItem) => it.metadata.getD [])) := by
  have hne' : ¬ files.length = 0 := by
    simpa [List.length_eq_zero] using hne
  refine ⟨allChunks.mapIdx (fun index chunk =>
      { id := jsOrStr chunk.id "",
        text := chunk.content,
        metadata := some (chunk.metadata.getD []),
        embedding := (embedFn (allChunks.map (fun c => c.content)))[index]? }),
    ?_, ?_, ?_, ?_, ?_, ?_, ?_, ?_⟩
  · simp [RagDataIngestor.ingest, hne', hloop]
  · simp [List.length_mapIdx]
  · intro i hi
    have hemb : i < (embedFn (allChunks.map (fun c => c.content))).length := by
      rw [hcount]; exact hi
    refine ⟨(embedFn (allChunks.map (fun c => c.content))).get ⟨i, hemb⟩,
      List.getElem?_eq_getElem hemb, ?_⟩
    rw [getElem?_mapIdx_of_lt allChunks _ i hi]
    rw [List.getElem?_eq_getElem hemb]
    rfl
  · simp [ChromaVectorStore.upsert]
  · simp [ChromaVectorStore.upsert]
  · simp [ChromaVectorStore.upsert]
  · simp [ChromaVectorStore.upsert]
  · intro i
    refine ⟨?_, ?_, ?_, ?_⟩ <;> simp [ChromaVectorStore.upsert, List.getElem?_map]

/-- Witness for C2: one text file producing one chunk `hello`; the
trace records exactly one embed call on `["hello"]` and the run
succeeds. -/
theorem C2_positional_alignment_witness :
    (RagDataIngestor.ingest
        (fun text meta => [{ id := some "c0", content := text, metadata := some meta }])
        (fun mimetype =>
          if mimetype = "text/plain" then
            some (fun _ _ => .ok (.inl { content := "hello" }))
          else none)
        (fun texts => texts.map (fun _ => [(2 : ℚ)]))
        [{ originalname := "f.txt", size := 5, mimetype := "text/plain",
           encoding := "7bit", buffer := "hello" }] []).2.embedCalls = [["hello"]] ∧
    (RagDataIngestor.ingest
        (fun text meta => [{ id := some "c0", content := text, metadata := some meta }])
        (fun mimetype =>
          if mimetype = "text/plain" then
            some (fun _ _ => .ok (.inl { content := "hello" }))
          else none)
        (fun texts => texts.map (fun _ => [(2 : ℚ)]))
        [{ originalname := "f.txt", size := 5, mimetype := "text/plain",
           encoding := "7bit", buffer := "hello" }] []).1 = .ok () := by
  obtain ⟨items, h1, -⟩ := C2_positional_alignment
    (fun text meta => [{ id := some "c0", content := text, metadata := some meta }])
    (fun mimetype =>
      if mimetype = "text/plain" then
        some (fun _ _ => .ok (.inl { content := "hello" }))
      else none)
    (fun texts => texts.map (fun _ => [(2 : ℚ)]))
    [{ originalname := "f.txt", size := 5, mimetype := "text/plain",
       encoding := "7bit", buffer := "hello" }] []
    [{ id := some "c0", content := "hello",
       metadata := some [("source", .str "f.txt"), ("mimeType", .str "text/plain")] }]
    ["f.txt"] rfl (by decide) (by decide)
  rw [h1]
  exact ⟨rfl, rfl⟩

/-- An empty plain-text upload. -/
def emptyTextFile : FileInfo :=
  { originalname := "empty.txt", size := 0, mimetype := "text/plain",
    encoding := "7bit", buffer := "" }

/-- The registry as populated at startup for plain text
(src/src/index.ts registers `text/plain ↦ createTextFileHandler()`),
restricted to the text entry this run needs. -/
def textOnlyRegistry :
    String → Option (Metadata → FileInfo → Except String (Document ⊕ List Document)) :=
  fun mimetype =>
    if mimetype = "text/plain" then
      some (fun _ file => (TextFileHandler.handleFile file).map .inl)
    else none

/-- The injected `RecursiveChunker` with the configuration defaults
`{chunkSize: 1000, overlap: 0}`, over the spec-modelled splitter. -/
def defaultChunkFn : String → Metadata → List Document :=
  fun text meta =>
    RecursiveChunker.chunk splitTextModel (fun i => toString i)
      { chunkSize := 1000, overlap := some 0 } text (some meta)

/-- A one-vector-per-text embedder used to close the ingestion runs. -/
def constEmbedFn : List String → List (List ℚ) :=
  fun texts => texts.map (fun _ => [(1 : ℚ)])

/-- C3 as stated fails on the code.  Ingesting one empty text file
resolves to zero chunks, yet `ingest` still performs one embedding call
(on the empty text batch) and one upsert call (on the empty item
batch): the claimed "no embedding call and no upsert call" is false. -/
theorem C3_counterexample_empty_file_still_calls_providers :
    (RagDataIngestor.ingest defaultChunkFn textOnlyRegistry constEmbedFn
        [emptyTextFile] []).2.embedCalls = [[]] ∧
    (RagDataIngestor.ingest defaultChunkFn textOnlyRegistry constEmbedFn
        [emptyTextFile] []).2.upsertCalls = [[]] ∧
    (RagDataIngestor.ingest defaultChunkFn textOnlyRegistry constEmbedFn
        [emptyTextFile] []).2.embedCalls ≠ [] ∧
    (RagDataIngestor.ingest defaultChunkFn textOnlyRegistry constEmbedFn
        [emptyTextFile] []).2.upsertCalls ≠ [] := by
  refine ⟨rfl, rfl, ?_, ?_⟩ <;> decide

/-- C3 (amended).  A non-empty file list whose files all resolve to
zero chunks produces zero chunks, and the embedding provider and the
vector store are still each invoked exactly once, with an empty text
batch and an empty item batch respectively (no chunk is embedded or
persisted). -/
theorem C3_zero_chunks_empty_batches
    (chunkFn : String → Metadata → List Document)
    (registry : String → Option (Metadata → FileInfo → Except String (Document ⊕ List Document)))
    (embedFn : List String → List (List ℚ))
    (files : List FileInfo) (params : Metadata) (calls : List String)
    (hne : files ≠ [])
    (hloop : RagDataIngestor.ingestLoop chunkFn registry params files =
      (.ok [], calls)) :
    RagDataIngestor.ingest chunkFn registry embedFn files params =
      (.ok (), ⟨calls, [[]], [[]]⟩) := by
  have hne' : ¬ files.length = 0 := by
    simpa [List.length_eq_zero] using hne
  simp [RagDataIngestor.ingest, hne', hloop]

/-- Witness for the amended C3 at the empty text file: chunking the
empty normalized content yields no chunk, and both provider calls
receive empty batches. -/
theorem C3_zero_chunks_empty_batches_witness :
    RagDataIngestor.ingest defaultChunkFn textOnlyRegistry constEmbedFn
        [emptyTextFile] [] =
      (.ok (), ⟨["empty.txt"], [[]], [[]]⟩) :=
  C3_zero_chunks_empty_batches defaultChunkFn textOnlyRegistry constEmbedFn
    [emptyTextFile] [] ["empty.txt"] (by decide) rfl

/-- C4 as stated fails on the code.  `processText` is not
idempotent: `"Page 1 ... 2"` normalizes to `"Page 1"` (the TOC-leader
pass strips the trailing dots and number), and a second application
strips `"Page 1"` as a page-number line, yielding `""`. -/
theorem C4_counterexample_not_idempotent :
    DefaultTextProcessor.processText
        (DefaultTextProcessor.processText "Page 1 ... 2") ≠
      DefaultTextProcessor.processText "Page 1 ... 2" := by
  decide

/-- C4 (amended).  `processText` is not idempotent on all strings,
but it is idempotent on the representative inputs of the spec: text
with a page-number-only line, text with an immediately duplicated line,
and text with a TOC leader line. -/
theorem C4_idempotent_on_representative_inputs :
    (DefaultTextProcessor.processText
        (DefaultTextProcessor.processText "Hi.\n7\nBye.") =
      DefaultTextProcessor.processText "Hi.\n7\nBye.") ∧
    (DefaultTextProcessor.processText
        (DefaultTextProcessor.processText "A b.\nA b.\nEnd.") =
      DefaultTextProcessor.processText "A b.\nA b.\nEnd.") ∧
    (DefaultTextProcessor.processText
        (DefaultTextProcessor.processText "Intro ... 3") =
      DefaultTextProcessor.processText "Intro ... 3") := by
  refine ⟨by decide, by decide, by decide⟩

end RagaOctai
